import Mathlib

/-!
Shallow embedding of the core logic of `src/app.py` (a Flask service that
distributes tasks over a multi-day plan and tracks progress points).

Modelling conventions:
* Python's `random` module is modelled by an explicit stream of natural
  numbers (`Rng`): each draw consumes the next number.  `random.choice`
  on an empty sequence raises `IndexError`; `random.randint(a, b)` with
  `a > b` raises `ValueError`.  Both are modelled as `Except` errors.
* Supabase tables are modelled as Lean lists kept in insertion order.
  `created_at` is assigned by the database and is strictly increasing with
  insertion, so `order("created_at", desc=True).limit(1)` followed by
  `["data"][0]` is `List.getLast?`, and the same query with an `eq` filter
  is `getLast?` of the filtered list.  A plain `eq` query followed by
  `["data"][0]` is `head?` of the filtered list.
* Python exceptions propagate out of the route handlers (where they are
  turned into generic HTTP 500 responses); here they propagate as
  `Except.error`.
-/

namespace Okane

/-- Errors that the embedded code can signal.  `indexError` and
`valueError` are the Python exceptions actually raised by the code;
`notFound` and `invalidInput` are the distinct error classes named by the
specification's taxonomy, which the code never produces. -/
inductive PyErr where
  | indexError
  | valueError
  | notFound
  | invalidInput
  deriving DecidableEq, Repr

/-- A deterministic source of "random" draws: a stream of naturals and a
cursor.  Each draw reads `stream idx` and advances the cursor. -/
structure Rng where
  stream : Nat → Nat
  idx : Nat

/-- Consume one draw from the source. -/
def Rng.next (r : Rng) : Nat × Rng :=
  (r.stream r.idx, ⟨r.stream, r.idx + 1⟩)

/-- Model of Python `random.choice(l)`: uniform choice from a list, where
the draw is interpreted modulo the list length; raises `IndexError` on an
empty sequence. -/
def randChoice {α : Type} : List α → Rng → Except PyErr (α × Rng)
  | [], _ => .error .indexError
  | x :: xs, r =>
    let p := r.next
    .ok ((x :: xs).get ⟨p.1 % (x :: xs).length, Nat.mod_lt _ (Nat.succ_pos _)⟩, p.2)

/-- Model of Python `random.randint(a, b)`: uniform integer in `[a, b]`,
interpreted modulo the range size; raises `ValueError` when `a > b`. -/
def randint (a b : Int) (r : Rng) : Except PyErr (Int × Rng) :=
  if b < a then .error .valueError
  else
    let p := r.next
    .ok (a + ((p.1 % (b - a + 1).toNat : Nat) : Int), p.2)

/-- A row of the `goals` table: `id`, `item_name`, `item_points`,
`status` (0 = proposed, 1 = accepted). -/
structure Goal where
  id : Int
  item_name : String
  item_points : Int
  status : Int
  deriving DecidableEq, Repr

/-- A row of the `tasks` table: `id`, `task` description, `point` value. -/
structure Task where
  id : Int
  task : String
  point : Int
  deriving DecidableEq, Repr

/-- An entry of `daily_plans` in `generate_daily_plans` before the point
assignment pass: the dict `{goal_id, day, task_id}`. -/
structure PlanDraft where
  goal_id : Int
  day : Int
  task_id : Int
  deriving DecidableEq, Repr

/-- An entry of `daily_plans` after the point assignment pass: the dict
`{goal_id, day, task_id, points}`. -/
structure PlanRow where
  goal_id : Int
  day : Int
  task_id : Int
  points : Int
  deriving DecidableEq, Repr

/-- First loop of `generate_daily_plans`: for each day in the given list,
pick one task id at random and emit one draft entry for that day. -/
def coveragePass (gid : Int) (tids : List Int) :
    List Int → Rng → Except PyErr (List PlanDraft × Rng)
  | [], r => .ok ([], r)
  | d :: ds, r =>
    match randChoice tids r with
    | .error e => .error e
    | .ok (tid, r₁) =>
      match coveragePass gid tids ds r₁ with
      | .error e => .error e
      | .ok (rest, r₂) => .ok (⟨gid, d, tid⟩ :: rest, r₂)

/-- Second loop of `generate_daily_plans`: `n` times, pick a random day in
`[1, days]` and a random task id and emit one more draft entry. -/
def surplusPass (gid : Int) (tids : List Int) (days : Int) :
    Nat → Rng → Except PyErr (List PlanDraft × Rng)
  | 0, r => .ok ([], r)
  | n + 1, r =>
    match randint 1 days r with
    | .error e => .error e
    | .ok (d, r₁) =>
      match randChoice tids r₁ with
      | .error e => .error e
      | .ok (tid, r₂) =>
        match surplusPass gid tids days n r₂ with
        | .error e => .error e
        | .ok (rest, r₃) => .ok (⟨gid, d, tid⟩ :: rest, r₃)

/-- Third loop of `generate_daily_plans`: give every emitted entry a
`points` value drawn by `randint(1, 5)`. -/
def pointsPass : List PlanDraft → Rng → Except PyErr (List PlanRow × Rng)
  | [], r => .ok ([], r)
  | p :: ps, r =>
    match randint 1 5 r with
    | .error e => .error e
    | .ok (pts, r₁) =>
      match pointsPass ps r₁ with
      | .error e => .error e
      | .ok (rest, r₂) => .ok (⟨p.goal_id, p.day, p.task_id, pts⟩ :: rest, r₂)

/-- Model of `generate_daily_plans(goal, tasks, days)` from `src/app.py`: one
coverage entry per day `1..days`, then `len(tasks) - days` surplus entries
on random days, then a random point value on every entry. -/
def generate_daily_plans (goal : Goal) (tasks : List Task) (days : Int)
    (r : Rng) : Except PyErr (List PlanRow × Rng) :=
  let gid := goal.id
  let tids := tasks.map (·.id)
  match coveragePass gid tids ((List.range days.toNat).map (fun (i : Nat) => (i : Int) + 1)) r with
  | .error e => .error e
  | .ok (cov, r₁) =>
    match surplusPass gid tids days ((tids.length : Int) - days).toNat r₁ with
    | .error e => .error e
    | .ok (sur, r₂) =>
      match pointsPass (cov ++ sur) r₂ with
      | .error e => .error e
      | .ok (plans, r₃) => .ok (plans, r₃)

/-- One element of the list returned by `generate_daily_plans_tmp`: a day
number together with the tasks planned for that day. -/
structure DayPlan where
  day : Int
  plans_today : List Task
  deriving DecidableEq, Repr

/-- Model of `generate_daily_plans_tmp(goal, tasks)` from `src/app.py`: the stub
actually called by the suggest endpoint.  It returns exactly two day
entries, day 1 and day 2, each holding one randomly chosen task. -/
def generate_daily_plans_tmp (tasks : List Task) (r : Rng) :
    Except PyErr (List DayPlan × Rng) :=
  match randChoice tasks r with
  | .error e => .error e
  | .ok (t₁, r₁) =>
    match randChoice tasks r₁ with
    | .error e => .error e
    | .ok (t₂, r₂) => .ok ([⟨1, [t₁]⟩, ⟨2, [t₂]⟩], r₂)

/-- The flattening loop of `suggest_plans_v2`: each day entry is unrolled
into `(day, task_id)` rows destined for the `plans` table. -/
def plans_processed (plans : List DayPlan) : List (Int × Int) :=
  plans.flatMap (fun p => p.plans_today.map (fun t => (p.day, t.id)))

/-- The plan-generation core of `suggest_plans_v2`: the plans it returns
in the response body and the rows it inserts into the `plans` table.  It
calls `generate_daily_plans_tmp`, not `generate_daily_plans`. -/
def suggest_core (tasks : List Task) (r : Rng) :
    Except PyErr ((List DayPlan × List (Int × Int)) × Rng) :=
  match generate_daily_plans_tmp tasks r with
  | .error e => .error e
  | .ok (plans, r₁) => .ok ((plans, plans_processed plans), r₁)

/-- A row of the `plans` table as stored by `suggest_plans_v2`: a database
`id`, a `day` and a `task_id`. -/
structure StoredPlan where
  id : Int
  day : Int
  task_id : Int
  deriving DecidableEq, Repr

/-- A row of the `tasks_ids` or `plans_ids` table: a database `id` whose
payload is a list of other rows' identifiers. -/
structure IdList where
  id : Int
  ids : List Int
  deriving DecidableEq, Repr

/-- A row of the `goals_relations` table, tying a goal to the id-list
handles produced by one suggest run. -/
structure Relation where
  goal_id : Int
  plans_ids_id : Int
  tasks_ids_id : Int
  deriving DecidableEq, Repr

/-- A row of the `progress` table. -/
structure ProgressEntry where
  goal_id : Int
  day : Int
  total_points : Int
  deriving DecidableEq, Repr

/-- The backing store: every table as a list of rows in insertion order
(`created_at` increases with position). -/
structure Store where
  goals : List Goal
  tasks : List Task
  tasks_ids : List IdList
  plans : List StoredPlan
  plans_ids : List IdList
  goals_relations : List Relation
  progress : List ProgressEntry
  deriving DecidableEq, Repr

/-- The goal insertion performed by `suggest_plans_v2` (line 99): a new
`goals` row with status `proposed` (the status column's default, 0). -/
def create_goal (s : Store) (name : String) (pts : Int) (newId : Int) : Store :=
  { s with goals := s.goals ++ [⟨newId, name, pts, 0⟩] }

/-- The happy path of `accept_plan` from `src/app.py`: read the
most-recently-created goal (IndexError when `goals` is empty), set its
status to 1, and insert one `goals_relations` row tying that goal's id to
the two id-list handles from the request body.  No goal id is taken from
the caller. -/
def accept_plan (s : Store) (plans_ids_id tasks_ids_id : Int) :
    Except PyErr Store :=
  match s.goals.getLast? with
  | none => .error .indexError
  | some g =>
    .ok { s with
          goals := s.goals.map (fun x => if x.id = g.id then { x with status := 1 } else x),
          goals_relations := s.goals_relations ++ [⟨g.id, plans_ids_id, tasks_ids_id⟩] }

/-- The handle-resolution walk of `get_today_plans` (lines 353-369): the
most-recently-created goal, its most recent `goals_relations` row, and the
`plans_ids` row named by that relation.  Each empty query result is the
code's unhandled IndexError. -/
def resolve_plans_ids (s : Store) : Except PyErr (List Int) :=
  match s.goals.getLast? with
  | none => .error .indexError
  | some g =>
    match (s.goals_relations.filter (fun rel => rel.goal_id == g.id)).getLast? with
    | none => .error .indexError
    | some rel =>
      match (s.plans_ids.filter (fun pl => pl.id == rel.plans_ids_id)).head? with
      | none => .error .indexError
      | some pl => .ok pl.ids

/-- The join loop of `get_today_plans` (lines 377-382): each plan row is
joined to its task to recover the description and point value. -/
def joinTasks (tasks : List Task) : List StoredPlan → Except PyErr (List (String × Int))
  | [] => .ok []
  | p :: ps =>
    match (tasks.filter (fun t => t.id == p.task_id)).head? with
    | none => .error .indexError
    | some t =>
      match joinTasks tasks ps with
      | .error e => .error e
      | .ok rest => .ok ((t.task, t.point) :: rest)

/-- Model of `get_today_plans` from `src/app.py`, given a valid `day` field:
resolve the current plan-id list by recency, filter the `plans` table to
those ids on the requested day, and join each row to its task. -/
def get_today_plans (s : Store) (day : Int) : Except PyErr (List (String × Int)) :=
  match resolve_plans_ids s with
  | .error e => .error e
  | .ok ids =>
    joinTasks s.tasks (s.plans.filter (fun p => ids.contains p.id && p.day == day))

/-- Model of `check_goal` from `src/app.py`: the most-recently-created goal with
status 1 (the filter is unconditional at this call site); indexing the
empty result raises an unhandled IndexError. -/
def check_goal (goals : List Goal) : Except PyErr (String × Int) :=
  match (goals.filter (fun g => g.status == 1)).getLast? with
  | none => .error .indexError
  | some g => .ok (g.item_name, g.item_points)

/-- The status of the goal row with the given id, read back from the
store as the code would (`eq` filter then first row). -/
def statusOf (s : Store) (gid : Int) : Option Int :=
  ((s.goals.filter (fun g => g.id == gid)).head?).map (·.status)

/-- The happy path of `submit` from `src/app.py`: read the
most-recently-created goal with no status filter and append one
`progress` row attributed to it.  The request body carries no goal id. -/
def submit (s : Store) (day total_points : Int) : Except PyErr Store :=
  match s.goals.getLast? with
  | none => .error .indexError
  | some g =>
    .ok { s with progress := s.progress ++ [⟨g.id, day, total_points⟩] }

/-- A finite sequence of `submit` calls, each carrying a `(day, points)`
pair. -/
def submitAll (s : Store) : List (Int × Int) → Except PyErr Store
  | [] => .ok s
  | dp :: l =>
    match submit s dp.1 dp.2 with
    | .error e => .error e
    | .ok s₁ => submitAll s₁ l

/-- Model of `get_points` from `src/app.py`: sum `total_points` over the progress
rows of the most-recently-created goal. -/
def get_points (s : Store) : Except PyErr Int :=
  match s.goals.getLast? with
  | none => .error .indexError
  | some g =>
    .ok (((s.progress.filter (fun p => p.goal_id == g.id)).map (·.total_points)).sum)

/-! ### Helper lemmas about the random primitives -/

theorem randChoice_ok {α : Type} {l : List α} (h : l ≠ []) (r : Rng) :
    ∃ t r₁, randChoice l r = .ok (t, r₁) ∧ t ∈ l := by
  cases l with
  | nil => exact absurd rfl h
  | cons x xs => exact ⟨_, _, rfl, List.get_mem _ _ _⟩

theorem randChoice_mem {α : Type} {l : List α} {r : Rng} {t : α} {r₁ : Rng}
    (h : randChoice l r = .ok (t, r₁)) : t ∈ l := by
  cases l with
  | nil => exact Except.noConfusion h
  | cons x xs =>
    simp only [randChoice, Except.ok.injEq, Prod.mk.injEq] at h
    exact h.1 ▸ List.get_mem _ _ _

theorem randint_ok {a b : Int} (h : a ≤ b) (r : Rng) :
    ∃ v r₁, randint a b r = .ok (v, r₁) ∧ a ≤ v ∧ v ≤ b := by
  have hlt : r.next.1 % (b - a + 1).toNat < (b - a + 1).toNat :=
    Nat.mod_lt _ (by omega)
  refine ⟨a + ((r.next.1 % (b - a + 1).toNat : Nat) : Int), r.next.2, ?_, by omega, by omega⟩
  unfold randint
  rw [if_neg (not_lt.mpr h)]

theorem randint_bounds {a b v : Int} {r r₁ : Rng}
    (h : randint a b r = .ok (v, r₁)) : a ≤ v ∧ v ≤ b := by
  unfold randint at h
  by_cases hab : b < a
  · rw [if_pos hab] at h
    exact Except.noConfusion h
  · rw [if_neg hab] at h
    have hlt : r.next.1 % (b - a + 1).toNat < (b - a + 1).toNat :=
      Nat.mod_lt _ (by omega)
    simp only [Except.ok.injEq, Prod.mk.injEq] at h
    obtain ⟨hv, -⟩ := h
    omega

theorem randint_err {a b : Int} (h : b < a) (r : Rng) :
    randint a b r = .error .valueError := by
  unfold randint
  rw [if_pos h]

/-! ### Lemmas about the three passes of `generate_daily_plans` -/

theorem coveragePass_map_day {gid : Int} {tids : List Int} :
    ∀ {ds : List Int} {r : Rng} {out : List PlanDraft} {r₁ : Rng},
      coveragePass gid tids ds r = .ok (out, r₁) → out.map (fun p => p.day) = ds := by
  intro ds
  induction ds with
  | nil =>
    intro r out r₁ h
    simp only [coveragePass, Except.ok.injEq, Prod.mk.injEq] at h
    obtain ⟨h1, -⟩ := h
    subst h1
    rfl
  | cons d ds ih =>
    intro r out r₁ h
    cases hc : randChoice tids r with
    | error e =>
      simp only [coveragePass, hc] at h
      exact Except.noConfusion h
    | ok v =>
      obtain ⟨tid, r₂⟩ := v
      cases hrec : coveragePass gid tids ds r₂ with
      | error e =>
        simp only [coveragePass, hc, hrec] at h
        exact Except.noConfusion h
      | ok w =>
        obtain ⟨rest, r₃⟩ := w
        simp only [coveragePass, hc, hrec, Except.ok.injEq, Prod.mk.injEq] at h
        obtain ⟨h1, -⟩ := h
        subst h1
        simp [ih hrec]

theorem coveragePass_ok (gid : Int) {tids : List Int} (h : tids ≠ []) :
    ∀ (ds : List Int) (r : Rng), ∃ out r₁,
      coveragePass gid tids ds r = .ok (out, r₁) := by
  intro ds
  induction ds with
  | nil => intro r; exact ⟨[], r, rfl⟩
  | cons d ds ih =>
    intro r
    obtain ⟨t, r₁, hc, -⟩ := randChoice_ok h r
    obtain ⟨out, r₂, hrec⟩ := ih r₁
    exact ⟨⟨gid, d, t⟩ :: out, r₂, by simp only [coveragePass, hc, hrec]⟩

theorem surplusPass_length {gid : Int} {tids : List Int} {days : Int} :
    ∀ {n : Nat} {r : Rng} {out : List PlanDraft} {r₁ : Rng},
      surplusPass gid tids days n r = .ok (out, r₁) → out.length = n := by
  intro n
  induction n with
  | zero =>
    intro r out r₁ h
    simp only [surplusPass, Except.ok.injEq, Prod.mk.injEq] at h
    obtain ⟨h1, -⟩ := h
    subst h1
    rfl
  | succ n ih =>
    intro r out r₁ h
    cases hd : randint 1 days r with
    | error e =>
      simp only [surplusPass, hd] at h
      exact Except.noConfusion h
    | ok v =>
      obtain ⟨d, r₂⟩ := v
      cases hc : randChoice tids r₂ with
      | error e =>
        simp only [surplusPass, hd, hc] at h
        exact Except.noConfusion h
      | ok w =>
        obtain ⟨tid, r₃⟩ := w
        cases hrec : surplusPass gid tids days n r₃ with
        | error e =>
          simp only [surplusPass, hd, hc, hrec] at h
          exact Except.noConfusion h
        | ok u =>
          obtain ⟨rest, r₄⟩ := u
          simp only [surplusPass, hd, hc, hrec, Except.ok.injEq, Prod.mk.injEq] at h
          obtain ⟨h1, -⟩ := h
          subst h1
          simp [ih hrec]

theorem surplusPass_ok (gid : Int) {tids : List Int} (h : tids ≠ []) (days : Int)
    (hd : 1 ≤ days) : ∀ (n : Nat) (r : Rng), ∃ out r₁,
      surplusPass gid tids days n r = .ok (out, r₁) := by
  intro n
  induction n with
  | zero => intro r; exact ⟨[], r, rfl⟩
  | succ n ih =>
    intro r
    obtain ⟨d, r₁, hday, -, -⟩ := randint_ok hd r
    obtain ⟨t, r₂, hc, -⟩ := randChoice_ok h r₁
    obtain ⟨out, r₃, hrec⟩ := ih r₂
    exact ⟨⟨gid, d, t⟩ :: out, r₃, by simp only [surplusPass, hday, hc, hrec]⟩

theorem pointsPass_ok : ∀ (ps : List PlanDraft) (r : Rng), ∃ out r₁,
    pointsPass ps r = .ok (out, r₁) := by
  intro ps
  induction ps with
  | nil => intro r; exact ⟨[], r, rfl⟩
  | cons p ps ih =>
    intro r
    obtain ⟨v, r₁, hv, -, -⟩ := randint_ok (by omega : (1 : Int) ≤ 5) r
    obtain ⟨out, r₂, hrec⟩ := ih r₁
    exact ⟨⟨p.goal_id, p.day, p.task_id, v⟩ :: out, r₂, by simp only [pointsPass, hv, hrec]⟩

theorem pointsPass_map_day :
    ∀ {ps : List PlanDraft} {r : Rng} {out : List PlanRow} {r₁ : Rng},
      pointsPass ps r = .ok (out, r₁) →
      out.map (fun q => q.day) = ps.map (fun p => p.day) := by
  intro ps
  induction ps with
  | nil =>
    intro r out r₁ h
    simp only [pointsPass, Except.ok.injEq, Prod.mk.injEq] at h
    obtain ⟨h1, -⟩ := h
    subst h1
    rfl
  | cons p ps ih =>
    intro r out r₁ h
    cases hv : randint 1 5 r with
    | error e =>
      simp only [pointsPass, hv] at h
      exact Except.noConfusion h
    | ok v =>
      obtain ⟨pts, r₂⟩ := v
      cases hrec : pointsPass ps r₂ with
      | error e =>
        simp only [pointsPass, hv, hrec] at h
        exact Except.noConfusion h
      | ok w =>
        obtain ⟨rest, r₃⟩ := w
        simp only [pointsPass, hv, hrec, Except.ok.injEq, Prod.mk.injEq] at h
        obtain ⟨h1, -⟩ := h
        subst h1
        simp [ih hrec]

theorem pointsPass_points_range :
    ∀ {ps : List PlanDraft} {r : Rng} {out : List PlanRow} {r₁ : Rng},
      pointsPass ps r = .ok (out, r₁) →
      ∀ q ∈ out, 1 ≤ q.points ∧ q.points ≤ 5 := by
  intro ps
  induction ps with
  | nil =>
    intro r out r₁ h
    simp only [pointsPass, Except.ok.injEq, Prod.mk.injEq] at h
    obtain ⟨h1, -⟩ := h
    subst h1
    intro q hq
    exact absurd hq (List.not_mem_nil q)
  | cons p ps ih =>
    intro r out r₁ h
    cases hv : randint 1 5 r with
    | error e =>
      simp only [pointsPass, hv] at h
      exact Except.noConfusion h
    | ok v =>
      obtain ⟨pts, r₂⟩ := v
      cases hrec : pointsPass ps r₂ with
      | error e =>
        simp only [pointsPass, hv, hrec] at h
        exact Except.noConfusion h
      | ok w =>
        obtain ⟨rest, r₃⟩ := w
        simp only [pointsPass, hv, hrec, Except.ok.injEq, Prod.mk.injEq] at h
        obtain ⟨h1, -⟩ := h
        subst h1
        intro q hq
        rcases List.mem_cons.mp hq with hq | hq
        · subst hq
          exact randint_bounds hv
        · exact ih hrec q hq

theorem coveragePass_length {gid : Int} {tids ds : List Int} {r : Rng}
    {out : List PlanDraft} {r₁ : Rng}
    (h : coveragePass gid tids ds r = .ok (out, r₁)) : out.length = ds.length := by
  have := congrArg List.length (coveragePass_map_day h)
  simpa using this

theorem pointsPass_length {ps : List PlanDraft} {r : Rng} {out : List PlanRow}
    {r₁ : Rng} (h : pointsPass ps r = .ok (out, r₁)) : out.length = ps.length := by
  have := congrArg List.length (pointsPass_map_day h)
  simpa using this

/-! ### Error classification: the passes only raise IndexError or ValueError -/

theorem randChoice_err {α : Type} {l : List α} {r : Rng} {e : PyErr}
    (h : randChoice l r = .error e) : e = .indexError := by
  cases l with
  | nil =>
    simp only [randChoice, Except.error.injEq] at h
    exact h.symm
  | cons x xs => exact Except.noConfusion h

theorem randint_err_class {a b : Int} {r : Rng} {e : PyErr}
    (h : randint a b r = .error e) : e = .valueError := by
  unfold randint at h
  by_cases hab : b < a
  · rw [if_pos hab] at h
    simp only [Except.error.injEq] at h
    exact h.symm
  · rw [if_neg hab] at h
    exact Except.noConfusion h

theorem coveragePass_err {gid : Int} {tids : List Int} :
    ∀ {ds : List Int} {r : Rng} {e : PyErr},
      coveragePass gid tids ds r = .error e → e = .indexError := by
  intro ds
  induction ds with
  | nil => intro r e h; exact Except.noConfusion h
  | cons d ds ih =>
    intro r e h
    cases hc : randChoice tids r with
    | error e₂ =>
      simp only [coveragePass, hc, Except.error.injEq] at h
      exact h ▸ randChoice_err hc
    | ok v =>
      obtain ⟨tid, r₂⟩ := v
      cases hrec : coveragePass gid tids ds r₂ with
      | error e₂ =>
        simp only [coveragePass, hc, hrec, Except.error.injEq] at h
        exact h ▸ ih hrec
      | ok w =>
        obtain ⟨rest, r₃⟩ := w
        simp only [coveragePass, hc, hrec] at h
        exact Except.noConfusion h

theorem surplusPass_err {gid : Int} {tids : List Int} {days : Int} :
    ∀ {n : Nat} {r : Rng} {e : PyErr},
      surplusPass gid tids days n r = .error e →
      e = .indexError ∨ e = .valueError := by
  intro n
  induction n with
  | zero => intro r e h; exact Except.noConfusion h
  | succ n ih =>
    intro r e h
    cases hd : randint 1 days r with
    | error e₂ =>
      simp only [surplusPass, hd, Except.error.injEq] at h
      exact Or.inr (h ▸ randint_err_class hd)
    | ok v =>
      obtain ⟨d, r₂⟩ := v
      cases hc : randChoice tids r₂ with
      | error e₂ =>
        simp only [surplusPass, hd, hc, Except.error.injEq] at h
        exact Or.inl (h ▸ randChoice_err hc)
      | ok w =>
        obtain ⟨tid, r₃⟩ := w
        cases hrec : surplusPass gid tids days n r₃ with
        | error e₂ =>
          simp only [surplusPass, hd, hc, hrec, Except.error.injEq] at h
          exact h ▸ ih hrec
        | ok u =>
          obtain ⟨rest, r₄⟩ := u
          simp only [surplusPass, hd, hc, hrec] at h
          exact Except.noConfusion h

theorem pointsPass_err :
    ∀ {ps : List PlanDraft} {r : Rng} {e : PyErr},
      pointsPass ps r = .error e → e = .valueError := by
  intro ps
  induction ps with
  | nil => intro r e h; exact Except.noConfusion h
  | cons p ps ih =>
    intro r e h
    cases hv : randint 1 5 r with
    | error e₂ =>
      simp only [pointsPass, hv, Except.error.injEq] at h
      exact h ▸ randint_err_class hv
    | ok v =>
      obtain ⟨pts, r₂⟩ := v
      cases hrec : pointsPass ps r₂ with
      | error e₂ =>
        simp only [pointsPass, hv, hrec, Except.error.injEq] at h
        exact h ▸ ih hrec
      | ok w =>
        obtain ⟨rest, r₃⟩ := w
        simp only [pointsPass, hv, hrec] at h
        exact Except.noConfusion h

theorem generate_daily_plans_err {goal : Goal} {tasks : List Task} {days : Int}
    {r : Rng} {e : PyErr}
    (h : generate_daily_plans goal tasks days r = .error e) :
    e = .indexError ∨ e = .valueError := by
  cases hc : coveragePass goal.id (tasks.map fun t => t.id)
      ((List.range days.toNat).map fun (i : Nat) => (i : Int) + 1) r with
  | error e₂ =>
    simp only [generate_daily_plans, hc, Except.error.injEq] at h
    exact Or.inl (h ▸ coveragePass_err hc)
  | ok v =>
    obtain ⟨cov, r₂⟩ := v
    cases hs : surplusPass goal.id (tasks.map fun t => t.id) days
        (((tasks.map fun t => t.id).length : Int) - days).toNat r₂ with
    | error e₂ =>
      simp only [generate_daily_plans, hc, hs, Except.error.injEq] at h
      exact h ▸ surplusPass_err hs
    | ok w =>
      obtain ⟨sur, r₃⟩ := w
      cases hp : pointsPass (cov ++ sur) r₃ with
      | error e₂ =>
        simp only [generate_daily_plans, hc, hs, hp, Except.error.injEq] at h
        exact Or.inr (h ▸ pointsPass_err hp)
      | ok u =>
        obtain ⟨plans, r₄⟩ := u
        simp only [generate_daily_plans, hc, hs, hp] at h
        exact Except.noConfusion h

/-! ### Concrete fixtures used by witnesses and counterexamples -/

/-- A deterministic random source: every draw yields 0. -/
def rng0 : Rng := ⟨fun _ => 0, 0⟩

/-- An example goal row. -/
def goalA : Goal := ⟨1, "computer", 100, 0⟩

/-- An example task row. -/
def taskA : Task := ⟨1, "cleaning", 5⟩

/-- A second example task row. -/
def taskB : Task := ⟨2, "wash dishes", 2⟩

/-! ### Claim C1 -/

/-- C1: for every non-empty task list and every horizon `H > 0`,
`generate_daily_plans` succeeds and returns a sequence of plan entries in
which every day in `[1, H]` is covered by at least one entry. -/
theorem C1_distribute_covers_every_day (goal : Goal) (tasks : List Task)
    (days : Int) (r : Rng) (htasks : tasks ≠ []) (hdays : 0 < days) :
    ∃ out r₁, generate_daily_plans goal tasks days r = .ok (out, r₁) ∧
      ∀ d : Int, 1 ≤ d → d ≤ days → ∃ p ∈ out, p.day = d := by
  have htids : tasks.map (fun t => t.id) ≠ [] := by
    simpa using htasks
  obtain ⟨cov, r₁, hc⟩ := coveragePass_ok goal.id htids
    ((List.range days.toNat).map fun (i : Nat) => (i : Int) + 1) r
  obtain ⟨sur, r₂, hs⟩ := surplusPass_ok goal.id htids days (by omega)
    (((tasks.map fun t => t.id).length : Int) - days).toNat r₁
  obtain ⟨out, r₃, hp⟩ := pointsPass_ok (cov ++ sur) r₂
  refine ⟨out, r₃, ?_, ?_⟩
  · simp only [generate_daily_plans, hc, hs, hp]
  · intro d h1 h2
    have hcov := coveragePass_map_day hc
    have hd : d ∈ List.map (fun p => p.day) cov := by
      rw [hcov]
      simp only [List.mem_map, List.mem_range]
      exact ⟨(d - 1).toNat, by omega, by omega⟩
    have hout : d ∈ List.map (fun q => q.day) out := by
      rw [pointsPass_map_day hp, List.map_append]
      exact List.mem_append.mpr (Or.inl hd)
    obtain ⟨p, hpmem, hpd⟩ := List.mem_map.mp hout
    exact ⟨p, hpmem, hpd⟩

/-- Witness for C1 at a concrete input: two tasks, horizon 3. -/
theorem C1_witness :
    ∃ out r₁, generate_daily_plans goalA [taskA, taskB] 3 rng0 = .ok (out, r₁) ∧
      ∀ d : Int, 1 ≤ d → d ≤ 3 → ∃ p ∈ out, p.day = d :=
  C1_distribute_covers_every_day goalA [taskA, taskB] 3 rng0 (by simp) (by omega)

/-! ### Claim C5 -/

/-- C5: whenever `generate_daily_plans` returns a sequence for a horizon
`H > 0`, the sequence has length exactly `H + max(0, len(tasks) - H)`. -/
theorem C5_distribute_length (goal : Goal) (tasks : List Task) (days : Int)
    (r : Rng) (out : List PlanRow) (r₁ : Rng) (hdays : 0 < days)
    (h : generate_daily_plans goal tasks days r = .ok (out, r₁)) :
    (out.length : Int) = days + max 0 ((tasks.length : Int) - days) := by
  cases hc : coveragePass goal.id (tasks.map fun t => t.id)
      ((List.range days.toNat).map fun (i : Nat) => (i : Int) + 1) r with
  | error e =>
    simp only [generate_daily_plans, hc] at h
    exact Except.noConfusion h
  | ok v =>
    obtain ⟨cov, r₂⟩ := v
    cases hs : surplusPass goal.id (tasks.map fun t => t.id) days
        (((tasks.map fun t => t.id).length : Int) - days).toNat r₂ with
    | error e =>
      simp only [generate_daily_plans, hc, hs] at h
      exact Except.noConfusion h
    | ok w =>
      obtain ⟨sur, r₃⟩ := w
      cases hp : pointsPass (cov ++ sur) r₃ with
      | error e =>
        simp only [generate_daily_plans, hc, hs, hp] at h
        exact Except.noConfusion h
      | ok u =>
        obtain ⟨plans, r₄⟩ := u
        simp only [generate_daily_plans, hc, hs, hp, Except.ok.injEq, Prod.mk.injEq] at h
        obtain ⟨h1, -⟩ := h
        subst h1
        have hcl := coveragePass_length hc
        have hsl := surplusPass_length hs
        have hpl := pointsPass_length hp
        simp only [List.length_map, List.length_range, List.length_append] at hcl hsl hpl
        omega

/-- Witness for C5 at a concrete input: one task, horizon 2, the all-zero
random source. -/
theorem C5_witness :
    (([⟨1, 1, 1, 1⟩, ⟨1, 2, 1, 1⟩] : List PlanRow).length : Int) =
      2 + max 0 ((([taskA] : List Task).length : Int) - 2) :=
  C5_distribute_length goalA [taskA] 2 rng0 [⟨1, 1, 1, 1⟩, ⟨1, 2, 1, 1⟩]
    ⟨fun _ => 0, 4⟩ (by omega) rfl

/-! ### Claim C6 -/

/-- C6: every plan entry produced by `generate_daily_plans` carries a
point value in the inclusive range `[1, 5]`. -/
theorem C6_distribute_points_in_range (goal : Goal) (tasks : List Task)
    (days : Int) (r : Rng) (out : List PlanRow) (r₁ : Rng)
    (h : generate_daily_plans goal tasks days r = .ok (out, r₁)) :
    ∀ p ∈ out, 1 ≤ p.points ∧ p.points ≤ 5 := by
  cases hc : coveragePass goal.id (tasks.map fun t => t.id)
      ((List.range days.toNat).map fun (i : Nat) => (i : Int) + 1) r with
  | error e =>
    simp only [generate_daily_plans, hc] at h
    exact Except.noConfusion h
  | ok v =>
    obtain ⟨cov, r₂⟩ := v
    cases hs : surplusPass goal.id (tasks.map fun t => t.id) days
        (((tasks.map fun t => t.id).length : Int) - days).toNat r₂ with
    | error e =>
      simp only [generate_daily_plans, hc, hs] at h
      exact Except.noConfusion h
    | ok w =>
      obtain ⟨sur, r₃⟩ := w
      cases hp : pointsPass (cov ++ sur) r₃ with
      | error e =>
        simp only [generate_daily_plans, hc, hs, hp] at h
        exact Except.noConfusion h
      | ok u =>
        obtain ⟨plans, r₄⟩ := u
        simp only [generate_daily_plans, hc, hs, hp, Except.ok.injEq, Prod.mk.injEq] at h
        obtain ⟨h1, -⟩ := h
        subst h1
        exact pointsPass_points_range hp

/-- Witness for C6 at a concrete input. -/
theorem C6_witness :
    1 ≤ (PlanRow.mk 1 1 1 1).points ∧ (PlanRow.mk 1 1 1 1).points ≤ 5 :=
  C6_distribute_points_in_range goalA [taskA] 2 rng0
    [⟨1, 1, 1, 1⟩, ⟨1, 2, 1, 1⟩] ⟨fun _ => 0, 4⟩ rfl ⟨1, 1, 1, 1⟩ (by decide)

/-! ### Claim C3 -/

/-- Counterexample to C3 as stated: with an empty task list and horizon 0
(`horizonDays <= 0`), `generate_daily_plans` does not fail at all, let
alone with `InvalidInput` — it returns the empty plan. -/
theorem C3_counterexample :
    generate_daily_plans goalA [] 0 rng0 = .ok ([], rng0) := rfl

/-- C3 amended: `generate_daily_plans` performs no input validation.  With
an empty task list and a positive horizon it raises a generic IndexError;
with an empty task list and horizon exactly 0 it succeeds with the empty
plan; with a non-positive horizon it raises a generic ValueError whenever
the surplus loop runs (non-empty tasks or negative horizon); and it never
produces the specification's `InvalidInput` error class. -/
theorem C3_no_input_validation (goal : Goal) (tasks : List Task) (days : Int)
    (r : Rng) :
    (tasks = [] → 0 < days →
      generate_daily_plans goal tasks days r = .error .indexError) ∧
    (tasks = [] → days = 0 →
      generate_daily_plans goal tasks days r = .ok ([], r)) ∧
    (days ≤ 0 → (tasks ≠ [] ∨ days < 0) →
      generate_daily_plans goal tasks days r = .error .valueError) ∧
    generate_daily_plans goal tasks days r ≠ .error .invalidInput := by
  refine ⟨?_, ?_, ?_, ?_⟩
  · intro ht hd
    subst ht
    obtain ⟨k, hk⟩ : ∃ k, days.toNat = k + 1 := ⟨days.toNat - 1, by omega⟩
    simp only [generate_daily_plans, List.map_nil, hk, List.range_succ_eq_map,
      List.map_cons, coveragePass, randChoice]
  · intro ht hd
    subst ht
    subst hd
    rfl
  · intro hd hcase
    have htoNat : days.toNat = 0 := by omega
    have hpos : 0 < (((tasks.map (fun t => t.id)).length : Int) - days).toNat := by
      rcases hcase with hne | hneg
      · have : 0 < tasks.length := List.length_pos.mpr hne
        simp only [List.length_map]
        omega
      · simp only [List.length_map]
        omega
    obtain ⟨m, hm⟩ : ∃ m, (((tasks.map (fun t => t.id)).length : Int) - days).toNat = m + 1 :=
      ⟨(((tasks.map (fun t => t.id)).length : Int) - days).toNat - 1, by omega⟩
    simp only [generate_daily_plans, htoNat, List.range_zero, List.map_nil,
      coveragePass, hm, surplusPass, randint_err (by omega : days < 1) r]
  · intro h
    rcases generate_daily_plans_err h with h1 | h1 <;> exact PyErr.noConfusion h1

/-- Witness for the amended C3 at concrete inputs: empty tasks with
horizon 1 give IndexError, empty tasks with horizon 0 succeed, one task
with horizon 0 gives ValueError, and none of these is InvalidInput. -/
theorem C3_witness :
    generate_daily_plans goalA [] 1 rng0 = .error .indexError ∧
    generate_daily_plans goalA [] 0 rng0 = .ok ([], rng0) ∧
    generate_daily_plans goalA [taskA] 0 rng0 = .error .valueError ∧
    generate_daily_plans goalA [taskA] 0 rng0 ≠ .error .invalidInput :=
  ⟨(C3_no_input_validation goalA [] 1 rng0).1 rfl (by omega),
   (C3_no_input_validation goalA [] 0 rng0).2.1 rfl rfl,
   (C3_no_input_validation goalA [taskA] 0 rng0).2.2.1 (by omega) (Or.inl (by simp)),
   (C3_no_input_validation goalA [taskA] 0 rng0).2.2.2⟩

/-! ### Claim C2 -/

/-- C2: whatever plan the suggest operation actually returns and persists
consists of exactly two day entries, day 1 and day 2, each holding one
task drawn from the input tasks, and the persisted rows are exactly one
row for day 1 and one for day 2 — regardless of how many tasks were
supplied. -/
theorem C2_suggest_two_entry_plan (tasks : List Task) (r : Rng)
    (out : (List DayPlan × List (Int × Int)) × Rng)
    (h : suggest_core tasks r = .ok out) :
    ∃ a b, a ∈ tasks ∧ b ∈ tasks ∧
      out.1.1 = [⟨1, [a]⟩, ⟨2, [b]⟩] ∧
      out.1.2 = [(1, a.id), (2, b.id)] := by
  cases h1 : randChoice tasks r with
  | error e =>
    simp only [suggest_core, generate_daily_plans_tmp, h1] at h
    exact Except.noConfusion h
  | ok v =>
    obtain ⟨a, r₁⟩ := v
    cases h2 : randChoice tasks r₁ with
    | error e =>
      simp only [suggest_core, generate_daily_plans_tmp, h1, h2] at h
      exact Except.noConfusion h
    | ok w =>
      obtain ⟨b, r₂⟩ := w
      simp only [suggest_core, generate_daily_plans_tmp, h1, h2, Except.ok.injEq] at h
      subst h
      refine ⟨a, b, randChoice_mem h1, randChoice_mem h2, rfl, ?_⟩
      simp [plans_processed]

/-- The concrete output of `suggest_core` on two tasks under the all-zero
random source. -/
def suggestOutAB : (List DayPlan × List (Int × Int)) × Rng :=
  (([⟨1, [taskA]⟩, ⟨2, [taskA]⟩], [(1, 1), (2, 1)]), ⟨fun _ => 0, 2⟩)

/-- Witness for C2 at a concrete input. -/
theorem C2_witness :
    ∃ a b, a ∈ [taskA, taskB] ∧ b ∈ [taskA, taskB] ∧
      suggestOutAB.1.1 = [⟨1, [a]⟩, ⟨2, [b]⟩] ∧
      suggestOutAB.1.2 = [(1, a.id), (2, b.id)] :=
  C2_suggest_two_entry_plan [taskA, taskB] rng0 suggestOutAB rfl

/-! ### Claim C4 -/

/-- Evaluating the happy path of `accept_plan` when the goals table is
non-empty. -/
theorem accept_plan_ok {s : Store} {g : Goal} (hg : s.goals.getLast? = some g)
    (p t : Int) :
    accept_plan s p t = .ok { s with
      goals := s.goals.map (fun x => if x.id = g.id then { x with status := 1 } else x),
      goals_relations := s.goals_relations ++ [⟨g.id, p, t⟩] } := by
  unfold accept_plan
  rw [hg]

/-- A store holding one goal and two plan-id-list rows, used to exercise
the link/resolve round trip. -/
def linkStoreA : Store :=
  ⟨[⟨1, "a", 10, 0⟩], [], [], [], [⟨10, [100]⟩, ⟨11, [200]⟩], [], []⟩

/-- Counterexample to C4 as stated: link goal 1's plan list (handle 10,
plan ids `[100]`), then create goal 2 and link handle 11 (plan ids
`[200]`) for it.  Resolution is by recency, not by the handle of the
first link call, so resolving now yields `[200]`, not the `[100]` that
the first link call stored. -/
theorem C4_counterexample :
    (((accept_plan linkStoreA 10 20).bind
        (fun s₁ => accept_plan (create_goal s₁ "b" 20 2) 11 21)).bind
      resolve_plans_ids) = .ok [200] ∧ ([200] : List Int) ≠ [100] :=
  ⟨rfl, by decide⟩

/-- C4 amended: the round trip holds only in the absence of intervening
writes — resolving immediately after a link call returns exactly the plan
ids referenced by the handle passed to that call (the linker stores the
handles against the most recent goal and resolution walks the most recent
goal's most recent association; task ids are never returned by
resolution). -/
theorem C4_link_then_resolve (s : Store) (p t : Int) (g : Goal) (pl : IdList)
    (hg : s.goals.getLast? = some g)
    (hpl : (s.plans_ids.filter (fun x => x.id == p)).head? = some pl) :
    ∃ s₁, accept_plan s p t = .ok s₁ ∧ resolve_plans_ids s₁ = .ok pl.ids := by
  refine ⟨_, accept_plan_ok hg p t, ?_⟩
  have hgoals : (s.goals.map
      (fun x => if x.id = g.id then { x with status := 1 } else x)).getLast? =
      some { g with status := 1 } := by
    rw [List.getLast?_map, hg]
    simp
  have hrel : ((s.goals_relations ++ [(⟨g.id, p, t⟩ : Relation)]).filter
      (fun rel => rel.goal_id == g.id)).getLast? = some ⟨g.id, p, t⟩ := by
    rw [List.filter_append, show (([(⟨g.id, p, t⟩ : Relation)]).filter
      (fun rel => rel.goal_id == g.id)) = [⟨g.id, p, t⟩] from by simp]
    exact List.getLast?_concat _
  simp only [resolve_plans_ids, hgoals, hrel, hpl]

/-- Witness for the amended C4 at a concrete input. -/
theorem C4_witness :
    ∃ s₁, accept_plan linkStoreA 10 20 = .ok s₁ ∧
      resolve_plans_ids s₁ = .ok ([100] : List Int) :=
  C4_link_then_resolve linkStoreA 10 20 ⟨1, "a", 10, 0⟩ ⟨10, [100]⟩ rfl rfl

/-! ### Claim C7 -/

/-- A store holding two proposed goals, id 1 created before id 2. -/
def storeTwoGoals : Store :=
  ⟨[⟨1, "a", 10, 0⟩, ⟨2, "b", 20, 0⟩], [], [], [], [], [], []⟩

/-- Counterexample to C7 as stated: `accept_plan` accepts no goal
identifier, so there is no call that sets goal 1's status; invoked on a
store whose goals are 1 (older) and 2 (newest), it leaves goal 1's status
at 0 (proposed). -/
theorem C7_counterexample :
    (accept_plan storeTwoGoals 5 6).map (fun s₁ => statusOf s₁ 1) = .ok (some 0) ∧
      some (0 : Int) ≠ some 1 :=
  ⟨rfl, by decide⟩

/-- The status-by-id lookup is unchanged by the acceptance update for
every goal id other than the updated one. -/
theorem statusFilter_accept_frame (gid gLatest : Int) (hgid : gid ≠ gLatest) :
    ∀ (l : List Goal),
      ((l.map (fun x => if x.id = gLatest then { x with status := 1 } else x)).filter
        (fun x => x.id == gid)).head? =
      (l.filter (fun x => x.id == gid)).head? := by
  intro l
  induction l with
  | nil => rfl
  | cons y ys ih =>
    by_cases hy : y.id = gLatest
    · have hyg : ¬y.id = gid := by
        intro hgg
        exact hgid (by rw [← hgg]; exact hy)
      simp only [List.map_cons, if_pos hy, List.filter_cons]
      have h1 : ((({ y with status := 1 } : Goal)).id == gid) = false := by
        simp [hyg]
      have h2 : (y.id == gid) = false := by
        simp [hyg]
      simp only [h1, h2, Bool.false_eq_true, if_false, ih]
    · by_cases hyg : y.id = gid
      · simp only [List.map_cons, if_neg hy, List.filter_cons]
        have h1 : (y.id == gid) = true := by simp [hyg]
        simp [h1]
      · simp only [List.map_cons, if_neg hy, List.filter_cons]
        have h1 : (y.id == gid) = false := by simp [hyg]
        simp only [h1, Bool.false_eq_true, if_false, ih]

/-- C7 amended: `accept_plan` takes no goal identifier; it sets the status
of the most-recently-created goal to accepted (1) and changes no other
goal's status, and it does not touch the plan or progress tables. -/
theorem C7_accept_sets_latest_goal (s : Store) (p t : Int) (g : Goal)
    (hg : s.goals.getLast? = some g) :
    ∃ s₁, accept_plan s p t = .ok s₁ ∧
      s₁.goals.getLast? = some { g with status := 1 } ∧
      (∀ gid : Int, gid ≠ g.id → statusOf s₁ gid = statusOf s gid) ∧
      s₁.progress = s.progress ∧ s₁.plans = s.plans := by
  refine ⟨_, accept_plan_ok hg p t, ?_, ?_, rfl, rfl⟩
  · rw [show ({ s with
        goals := s.goals.map (fun x => if x.id = g.id then { x with status := 1 } else x),
        goals_relations := s.goals_relations ++ [⟨g.id, p, t⟩] } : Store).goals =
      s.goals.map (fun x => if x.id = g.id then { x with status := 1 } else x) from rfl]
    rw [List.getLast?_map, hg]
    simp
  · intro gid hgid
    unfold statusOf
    rw [statusFilter_accept_frame gid g.id hgid s.goals]

/-- Witness for the amended C7 at a concrete input. -/
theorem C7_witness :
    ∃ s₁, accept_plan storeTwoGoals 5 6 = .ok s₁ ∧
      s₁.goals.getLast? = some ⟨2, "b", 20, 1⟩ ∧
      (∀ gid : Int, gid ≠ 2 → statusOf s₁ gid = statusOf storeTwoGoals gid) ∧
      s₁.progress = storeTwoGoals.progress ∧ s₁.plans = storeTwoGoals.plans :=
  C7_accept_sets_latest_goal storeTwoGoals 5 6 ⟨2, "b", 20, 0⟩ rfl

/-! ### Claim C8 -/

/-- Counterexample to C8 as stated: with no goal matching, `check_goal`
fails with the same generic unhandled IndexError as any other empty query
result, not with a distinct NotFound error class. -/
theorem C8_counterexample :
    check_goal [] = .error .indexError ∧ PyErr.indexError ≠ PyErr.notFound :=
  ⟨rfl, by decide⟩

/-- C8 amended: `check_goal` returns the most-recently-created goal with
accepted status (the accepted filter is unconditional at this call site),
and when no goal matches it fails with a generic unhandled IndexError
rather than a distinct NotFound. -/
theorem C8_current_goal_behavior (l₁ l₂ : List Goal) (g : Goal)
    (hg : g.status = 1) (h₂ : ∀ x ∈ l₂, x.status ≠ 1) :
    check_goal (l₁ ++ g :: l₂) = .ok (g.item_name, g.item_points) ∧
    ∀ goals : List Goal, (∀ x ∈ goals, x.status ≠ 1) →
      check_goal goals = .error .indexError := by
  constructor
  · unfold check_goal
    have hl₂ : l₂.filter (fun x => x.status == 1) = [] := by
      rw [List.filter_eq_nil_iff]
      intro a ha
      simp [h₂ a ha]
    rw [List.filter_append, List.filter_cons_of_pos (by simp [hg]), hl₂,
      List.getLast?_concat]
  · intro goals hnone
    unfold check_goal
    have hl : goals.filter (fun x => x.status == 1) = [] := by
      rw [List.filter_eq_nil_iff]
      intro a ha
      simp [hnone a ha]
    rw [hl]
    rfl

/-- Witness for the amended C8 at a concrete input. -/
theorem C8_witness :
    check_goal [⟨1, "a", 10, 1⟩] = .ok ("a", 10) ∧
      check_goal [] = .error .indexError := by
  have h := C8_current_goal_behavior [] [] ⟨1, "a", 10, 1⟩ rfl
    (fun x hx => absurd hx (List.not_mem_nil x))
  exact ⟨h.1, h.2 [] (fun x hx => absurd hx (List.not_mem_nil x))⟩

/-! ### Claim C9 -/

/-- Folding a list of submissions over a store whose latest goal is `g`
appends exactly one progress row per submission, each attributed to `g`. -/
theorem submitAll_spec (g : Goal) :
    ∀ (l : List (Int × Int)) (s : Store), s.goals.getLast? = some g →
      submitAll s l = .ok { s with
        progress := s.progress ++ l.map (fun dp => ⟨g.id, dp.1, dp.2⟩) } := by
  intro l
  induction l with
  | nil =>
    intro s hg
    simp [submitAll]
  | cons dp l ih =>
    intro s hg
    have hsub : submit s dp.1 dp.2 =
        .ok { s with progress := s.progress ++ [⟨g.id, dp.1, dp.2⟩] } := by
      unfold submit
      rw [hg]
    rw [show submitAll s (dp :: l) =
      submitAll { s with progress := s.progress ++ [⟨g.id, dp.1, dp.2⟩] } l from by
        simp [submitAll, hsub]]
    rw [ih { s with progress := s.progress ++ [⟨g.id, dp.1, dp.2⟩] } hg]
    simp

/-- The point total after a batch of submissions: the previous total for
the latest goal plus the sum of the submitted values. -/
theorem get_points_after (s : Store) (g : Goal) (hg : s.goals.getLast? = some g)
    (l : List (Int × Int)) :
    get_points { s with
        progress := s.progress ++ l.map (fun dp => ⟨g.id, dp.1, dp.2⟩) } =
      .ok ((((s.progress.filter (fun q => q.goal_id == g.id)).map
        (fun q => q.total_points)).sum) + (l.map (fun dp => dp.2)).sum) := by
  simp only [get_points, hg]
  rw [List.filter_append]
  have hkeep : (l.map (fun dp => (⟨g.id, dp.1, dp.2⟩ : ProgressEntry))).filter
      (fun q => q.goal_id == g.id) = l.map (fun dp => ⟨g.id, dp.1, dp.2⟩) := by
    rw [List.filter_eq_self]
    intro a ha
    obtain ⟨dp, -, rfl⟩ := List.mem_map.mp ha
    simp
  rw [hkeep, List.map_append, List.sum_append, List.map_map]
  simp [Function.comp]
  rfl

/-- C9: for a fixed latest goal, the total returned by `get_points` after
any batch of submissions equals the previous total plus the sum of all
submitted daily totals, in any submission order, and each submission adds
one more progress row (resubmitted days accumulate instead of
replacing). -/
theorem C9_total_points_commutative (s : Store) (g : Goal)
    (hg : s.goals.getLast? = some g) (l₁ l₂ : List (Int × Int))
    (hperm : l₁.Perm l₂) :
    ∃ s₁ s₂, submitAll s l₁ = .ok s₁ ∧ submitAll s l₂ = .ok s₂ ∧
      get_points s₁ = .ok ((((s.progress.filter (fun q => q.goal_id == g.id)).map
        (fun q => q.total_points)).sum) + (l₁.map (fun dp => dp.2)).sum) ∧
      get_points s₂ = get_points s₁ ∧
      s₁.progress.length = s.progress.length + l₁.length := by
  refine ⟨_, _, submitAll_spec g l₁ s hg, submitAll_spec g l₂ s hg, ?_, ?_, ?_⟩
  · exact get_points_after s g hg l₁
  · rw [get_points_after s g hg l₁, get_points_after s g hg l₂]
    have hsum : (l₂.map (fun dp => dp.2)).sum = (l₁.map (fun dp => dp.2)).sum :=
      (hperm.map (fun dp => dp.2)).sum_eq.symm
    rw [hsum]
  · simp

/-- A store holding exactly one goal. -/
def storeOneGoal : Store := ⟨[⟨1, "a", 10, 0⟩], [], [], [], [], [], []⟩

/-- Witness for C9 at a concrete input: submitting `(1,5)` then `(2,3)`
totals 8, in either order. -/
theorem C9_witness :
    ∃ s₁ s₂, submitAll storeOneGoal [((1 : Int), (5 : Int)), (2, 3)] = .ok s₁ ∧
      submitAll storeOneGoal [((2 : Int), (3 : Int)), (1, 5)] = .ok s₂ ∧
      get_points s₁ = .ok ((((storeOneGoal.progress.filter
        (fun q => q.goal_id == (⟨1, "a", 10, 0⟩ : Goal).id)).map
        (fun q => q.total_points)).sum) +
        (([((1 : Int), (5 : Int)), (2, 3)]).map (fun dp => dp.2)).sum) ∧
      get_points s₂ = get_points s₁ ∧
      s₁.progress.length = storeOneGoal.progress.length + 2 :=
  C9_total_points_commutative storeOneGoal ⟨1, "a", 10, 0⟩ rfl
    [(1, 5), (2, 3)] [(2, 3), (1, 5)] (by decide)

/-! ### Claim C10 -/

/-- C10: `submit` takes no goal identifier from the request; it appends a
progress row attributed to the most-recently-created goal — the last
inserted `goals` row, with no accepted-status filter — leaving the goals
table unchanged. -/
theorem C10_submit_attributes_to_latest (s : Store) (l : List Goal) (g : Goal)
    (day pts : Int) (hs : s.goals = l ++ [g]) :
    ∃ s₁, submit s day pts = .ok s₁ ∧
      s₁.progress = s.progress ++ [⟨g.id, day, pts⟩] ∧
      s₁.goals = s.goals := by
  have hg : s.goals.getLast? = some g := by
    rw [hs]
    exact List.getLast?_concat l
  refine ⟨{ s with progress := s.progress ++ [⟨g.id, day, pts⟩] }, ?_, rfl, rfl⟩
  unfold submit
  rw [hg]

/-- A store whose older goal (id 1) is accepted and whose newest goal
(id 2) is still proposed. -/
def storeAcceptedOld : Store :=
  ⟨[⟨1, "a", 10, 1⟩, ⟨2, "b", 20, 0⟩], [], [], [], [], [], []⟩

/-- Witness for C10 at a concrete input: the submission is attributed to
the newest goal (id 2, still proposed) even though an older accepted goal
exists. -/
theorem C10_witness :
    ∃ s₁, submit storeAcceptedOld 3 7 = .ok s₁ ∧
      s₁.progress = storeAcceptedOld.progress ++ [⟨2, 3, 7⟩] ∧
      s₁.goals = storeAcceptedOld.goals :=
  C10_submit_attributes_to_latest storeAcceptedOld [⟨1, "a", 10, 1⟩]
    ⟨2, "b", 20, 0⟩ 3 7 rfl

end Okane
